import Mathlib

/-!
Shallow embedding of `src/tradingbot.py` (class `AlpacaTradingBot`): the
rebalancing decision engine `calculate_rebalance_action`, order execution
(`place_order` / `execute_rebalance`), the market-open check `is_market_open`,
and the monitoring loop body of `start_monitoring`.

Modelling conventions:
* Python floats (prices, thresholds, cash amounts) are modelled as exact
  rationals `ℚ`.
* Broker calls are modelled by their observable results, passed in as
  parameters: a price fetch yields `Option ℚ` (`none` = exception inside
  `get_current_price`, caught and turned into Python `None`); a position fetch
  yields `Option PositionInfo` (`none` = exception inside `get_position`, which
  the source converts into the all-zero position dict); an order submission
  yields a `Bool` (`false` = exception inside `api.submit_order`, caught by
  `place_order`).
* Python truthiness of a possibly-`None` float field (`if not
  self.initial_price: ...`) is falsity exactly for `none` and `some 0`.
* Python `int(x)` truncates toward zero: `pyInt`.
* The human-readable `reason` strings in the decision dict and the timestamps
  in trade records are logging/reporting-only and carry no behaviour; they are
  not modelled.
-/

namespace TradingBot

/-- Python `int(x)` on a float: truncation toward zero. -/
def pyInt (q : ℚ) : ℤ := if 0 ≤ q then ⌊q⌋ else ⌈q⌉

/-- Order side, the `'sell'` / `'buy'` strings of the source. -/
inductive Action where
  | sell
  | buy
deriving DecidableEq

/-- The action dict returned by `calculate_rebalance_action`: keys `action`,
`qty`, and the optional flags `reserve_cash` / `use_reserve` (a missing key is
modelled as `false`, matching `action_dict.get(...)` which yields falsy `None`
for a missing key). The `reason` string is logging-only and not modelled. -/
structure Decision where
  action : Action
  qty : ℤ
  reserve_cash : Bool
  use_reserve : Bool
deriving DecidableEq

/-- A trade record appended to `self.trades_today` by `place_order`.
The `timestamp` and `reason` entries are reporting-only and not modelled. -/
structure Trade where
  ticker : String
  side : Action
  qty : ℤ
  price : Option ℚ
deriving DecidableEq

/-- The position dict returned by `get_position`. -/
structure PositionInfo where
  qty : ℤ
  market_value : ℚ
  avg_entry_price : ℚ
  unrealized_pl : ℚ
  unrealized_plpc : ℚ
deriving DecidableEq

/-- The mutable fields of `AlpacaTradingBot` that the rebalancing logic reads
and writes. `daily_high` / `daily_low` are plain rationals because
`start_monitoring` assigns them before the loop body ever runs; `initial_price`
and `current_price` stay optional because `calculate_rebalance_action` tests
their truthiness. -/
structure BotState where
  ticker : String
  initial_price : Option ℚ
  current_price : Option ℚ
  daily_high : ℚ
  daily_low : ℚ
  cash_reserve : ℚ
  trades : List Trade
  is_running : Bool
deriving DecidableEq

/-- The external (broker) outcomes consumed by one iteration of the monitoring
loop: the price fetch, the position fetch, and the order-submission outcome
(used only when a decision fires). -/
structure Inputs where
  fetched_price : Option ℚ
  position_fetch : Option PositionInfo
  order_ok : Bool
deriving DecidableEq

/-- The all-zero position dict
`{'qty': 0, 'market_value': 0, 'avg_entry_price': 0, 'unrealized_pl': 0,
'unrealized_plpc': 0}`. -/
def zero_position : PositionInfo :=
  { qty := 0, market_value := 0, avg_entry_price := 0
    unrealized_pl := 0, unrealized_plpc := 0 }

/-- `get_position` (src/tradingbot.py:73-89): both "ticker not in
`list_positions`" and any exception produce the all-zero position dict, so a
failed position fetch (`none`) degrades to the zero position. -/
def get_position (res : Option PositionInfo) : PositionInfo :=
  match res with
  | some p => p
  | none => zero_position

/-- `self.gain_threshold = 0.05`. -/
def gain_threshold : ℚ := 5 / 100

/-- `self.loss_threshold = 0.10`. -/
def loss_threshold : ℚ := 10 / 100

/-- `calculate_rebalance_action` (src/tradingbot.py:118-158), as a function of
the fields it reads (`initial_price`, `current_price`, `cash_reserve`) and the
broker outcome of its internal `get_position` call. -/
def calculate_rebalance_action (st : BotState) (pos : Option PositionInfo) :
    Option Decision :=
  match st.initial_price, st.current_price with
  | some ip, some cp =>
    if ip = 0 ∨ cp = 0 then none
    else
      let pct_change := (cp - ip) / ip
      let current_qty := (get_position pos).qty
      if gain_threshold ≤ pct_change ∧ st.cash_reserve = 0 then
        if 0 < current_qty then
          some { action := Action.sell
                 qty := max 1 (pyInt ((current_qty : ℚ) * (5 / 100)))
                 reserve_cash := true
                 use_reserve := false }
        else none
      else
        if pct_change ≤ -loss_threshold ∧ 0 < st.cash_reserve then
          if 0 < st.cash_reserve ∧ 0 < cp then
            let buy_qty := pyInt (st.cash_reserve / cp)
            if 0 < buy_qty then
              some { action := Action.buy
                     qty := buy_qty
                     reserve_cash := false
                     use_reserve := true }
            else none
          else none
        else none
  | _, _ => none

/-- `place_order` (src/tradingbot.py:91-116): on submission success it appends
a trade record (priced at `self.current_price`) and returns `True`; on an
exception it returns `False` without touching any state. -/
def place_order (st : BotState) (qty : ℤ) (side : Action) (submit_ok : Bool) :
    Bool × BotState :=
  if submit_ok then
    (true, { st with trades := st.trades ++
      [{ ticker := st.ticker, side := side, qty := qty,
         price := st.current_price }] })
  else
    (false, st)

/-- `execute_rebalance` (src/tradingbot.py:160-183). On submission success the
cash reserve is updated per the decision's flag; the `none` branch of the
`reserve_cash` update models the `TypeError` a `None` current price would raise
inside the surrounding `try`, caught and turned into `False`. -/
def execute_rebalance (st : BotState) (action_dict : Decision)
    (submit_ok : Bool) : Bool × BotState :=
  let r := place_order st action_dict.qty action_dict.action submit_ok
  if r.1 then
    if action_dict.reserve_cash then
      match r.2.current_price with
      | some cp => (true, { r.2 with cash_reserve := (action_dict.qty : ℚ) * cp })
      | none => (false, r.2)
    else if action_dict.use_reserve then
      (true, { r.2 with cash_reserve := 0 })
    else (true, r.2)
  else (false, r.2)

/-- `is_market_open` (src/tradingbot.py:185-192), as a function of the
`get_clock` outcome (`none` = exception, `some b` = a clock whose `is_open`
field is `b`). The source returns the literal `True` whenever the clock lookup
succeeds — line 189 reads `return True #clock.is_open` — so the clock's actual
`is_open` value is ignored. -/
def is_market_open (clock : Option Bool) : Bool :=
  match clock with
  | some _ => true
  | none => false

/-- The market-open check as the spec words it: `IsMarketOpen() → boolean`,
returning the market's open/closed status, fail-safe to `false` on lookup
failure. Kept separate from `is_market_open` to compare the source against the
spec. -/
def is_market_open_asSpecified (clock : Option Bool) : Bool :=
  match clock with
  | some is_open => is_open
  | none => false

/-- The price-observation part of the loop body (src/tradingbot.py:222-226):
record the fetched price and widen the daily extremes. -/
def price_update (st : BotState) (p : ℚ) : BotState :=
  { st with current_price := some p
            daily_high := max st.daily_high p
            daily_low := min st.daily_low p }

/-- One iteration of the `while` body of `start_monitoring`
(src/tradingbot.py:218-255): a falsy fetched price (`None` or `0.0`) skips the
whole `if current_price:` block, otherwise the state is updated, a decision is
computed and, if one fires, executed. -/
def monitoring_step (st : BotState) (inp : Inputs) : BotState :=
  match inp.fetched_price with
  | none => st
  | some p =>
    if p = 0 then st
    else
      let st1 := price_update st p
      match calculate_rebalance_action st1 inp.position_fetch with
      | none => st1
      | some action_dict => (execute_rebalance st1 action_dict inp.order_ok).2

/-- A sequence of loop iterations, driven by the per-iteration broker
outcomes. -/
def monitoring_run (st : BotState) (inputs : List Inputs) : BotState :=
  inputs.foldl monitoring_step st

/-- The session state `start_monitoring` (src/tradingbot.py:194-215) builds
after a successful (truthy) initial price fetch `ip`, just before entering the
loop: reference price, extremes and current price all equal `ip`, no cash
reserve, empty ledger, running. -/
def start_monitoring_init (ticker : String) (ip : ℚ) : BotState :=
  { ticker := ticker
    initial_price := some ip
    current_price := some ip
    daily_high := ip
    daily_low := ip
    cash_reserve := 0
    trades := []
    is_running := true }

/-- The decision an iteration evaluates (if any): `none` when the fetched price
is falsy, otherwise the engine's output on the price-updated state. -/
def step_decision (st : BotState) (inp : Inputs) : Option Decision :=
  match inp.fetched_price with
  | none => none
  | some p =>
    if p = 0 then none
    else calculate_rebalance_action (price_update st p) inp.position_fetch

/-- The iteration performs a `sets-reserve` update: a decision flagged
`reserve_cash` fires and the order submission succeeds. -/
def SetsReserveAt (st : BotState) (inp : Inputs) : Prop :=
  inp.order_ok = true ∧
    ∃ d, step_decision st inp = some d ∧ d.reserve_cash = true

/-- The iteration performs a `clears-reserve` update: a decision flagged
`use_reserve` fires and the order submission succeeds. -/
def ClearsReserveAt (st : BotState) (inp : Inputs) : Prop :=
  inp.order_ok = true ∧
    ∃ d, step_decision st inp = some d ∧ d.use_reserve = true ∧
      d.reserve_cash = false

/-- The prices a sequence of iterations actually observes: the truthy fetch
results (a `None` or `0.0` fetch is skipped by the `if current_price:`
guard and never stored). -/
def observed_prices (inputs : List Inputs) : List ℚ :=
  inputs.filterMap fun inp =>
    match inp.fetched_price with
    | none => none
    | some p => if p = 0 then none else some p

/-- On a nonnegative argument Python truncation agrees with `floor`. -/
theorem pyInt_nonneg_eq_floor {q : ℚ} (h : 0 ≤ q) : pyInt q = ⌊q⌋ := if_pos h

theorem pyInt_neg_eq_ceil {q : ℚ} (h : q < 0) : pyInt q = ⌈q⌉ := if_neg (by linarith)

example : pyInt (35 / 6 : ℚ) = 5 := by norm_num [pyInt]

example :
    calculate_rebalance_action
      ⟨"X", some 100, some 105, 105, 100, 0, [], true⟩
      (some ⟨100, 0, 0, 0, 0⟩) =
    some ⟨Action.sell, 5, true, false⟩ := by
  norm_num [calculate_rebalance_action, get_position, gain_threshold,
    loss_threshold, pyInt]

example :
    calculate_rebalance_action
      ⟨"X", some 100, some 90, 105, 90, 525, [], true⟩
      (some ⟨95, 0, 0, 0, 0⟩) =
    some ⟨Action.buy, 5, false, true⟩ := by
  norm_num [calculate_rebalance_action, get_position, gain_threshold,
    loss_threshold, pyInt]

/-- When the gain condition holds against a positive reference price, the
current price is itself positive (it is at least `21/20` of the reference). -/
theorem cp_pos_of_gain {ip cp : ℚ} (hip : 0 < ip)
    (h : gain_threshold ≤ (cp - ip) / ip) : 0 < cp := by
  rw [gain_threshold, le_div_iff₀ hip] at h
  linarith

/-- Inversion on the decision engine: any decision it emits comes from exactly
one of the two branches, with that branch's guards holding. -/
theorem calculate_eq_some_inv {st : BotState} {pos : Option PositionInfo}
    {d : Decision} (h : calculate_rebalance_action st pos = some d) :
    ∃ ip cp, st.initial_price = some ip ∧ st.current_price = some cp ∧
      ip ≠ 0 ∧ cp ≠ 0 ∧
      ((d.action = Action.sell ∧ d.reserve_cash = true ∧ d.use_reserve = false ∧
        gain_threshold ≤ (cp - ip) / ip ∧ st.cash_reserve = 0 ∧
        0 < (get_position pos).qty ∧
        d.qty = max 1 (pyInt (((get_position pos).qty : ℚ) * (5 / 100))) ∧
        0 < d.qty) ∨
       (d.action = Action.buy ∧ d.reserve_cash = false ∧ d.use_reserve = true ∧
        (cp - ip) / ip ≤ -loss_threshold ∧ 0 < st.cash_reserve ∧ 0 < cp ∧
        d.qty = pyInt (st.cash_reserve / cp) ∧ 0 < d.qty)) := by
  rcases hip : st.initial_price with _ | ip
  · simp [calculate_rebalance_action, hip] at h
  rcases hcp : st.current_price with _ | cp
  · simp [calculate_rebalance_action, hip, hcp] at h
  simp only [calculate_rebalance_action, hip, hcp] at h
  refine ⟨ip, cp, rfl, rfl, ?_⟩
  by_cases h0 : ip = 0 ∨ cp = 0
  · rw [if_pos h0] at h
    exact absurd h (by simp)
  rw [if_neg h0] at h
  push_neg at h0
  refine ⟨h0.1, h0.2, ?_⟩
  by_cases hg : gain_threshold ≤ (cp - ip) / ip ∧ st.cash_reserve = 0
  · rw [if_pos hg] at h
    by_cases hq : 0 < (get_position pos).qty
    · rw [if_pos hq] at h
      obtain rfl := Option.some.inj h
      exact Or.inl ⟨rfl, rfl, rfl, hg.1, hg.2, hq, rfl,
        lt_of_lt_of_le zero_lt_one (le_max_left 1 _)⟩
    · rw [if_neg hq] at h
      exact absurd h (by simp)
  · rw [if_neg hg] at h
    by_cases hl : (cp - ip) / ip ≤ -loss_threshold ∧ 0 < st.cash_reserve
    · rw [if_pos hl] at h
      by_cases hg2 : 0 < st.cash_reserve ∧ 0 < cp
      · rw [if_pos hg2] at h
        by_cases hbq : 0 < pyInt (st.cash_reserve / cp)
        · rw [if_pos hbq] at h
          obtain rfl := Option.some.inj h
          exact Or.inr ⟨rfl, rfl, rfl, hl.1, hl.2, hg2.2, rfl, hbq⟩
        · rw [if_neg hbq] at h
          exact absurd h (by simp)
      · rw [if_neg hg2] at h
        exact absurd h (by simp)
    · rw [if_neg hl] at h
      exact absurd h (by simp)

/-- Claim C1: for every session with a positive reference price and a zero
cash reserve, and every position with positive quantity, if the percentage
change reaches the gain threshold then the engine returns a sell decision for
`max(1, floor(quantity × 0.05))` shares flagged `reserve_cash`, and a
successful execution sets the cash reserve to the sold quantity times the
current price. -/
theorem gain_branch_sells_five_percent (st : BotState)
    (pos : Option PositionInfo) (ip cp : ℚ)
    (h1 : st.initial_price = some ip) (h2 : 0 < ip)
    (h3 : st.current_price = some cp)
    (h4 : st.cash_reserve = 0) (h5 : 0 < (get_position pos).qty)
    (h6 : gain_threshold ≤ (cp - ip) / ip) :
    calculate_rebalance_action st pos =
      some { action := Action.sell
             qty := max 1 ⌊((get_position pos).qty : ℚ) * (5 / 100)⌋
             reserve_cash := true
             use_reserve := false } ∧
    ∀ d, calculate_rebalance_action st pos = some d →
      (execute_rebalance st d true).1 = true ∧
      (execute_rebalance st d true).2.cash_reserve = (d.qty : ℚ) * cp := by
  have hcp : 0 < cp := cp_pos_of_gain h2 h6
  have hfl : pyInt (((get_position pos).qty : ℚ) * (5 / 100)) =
      ⌊((get_position pos).qty : ℚ) * (5 / 100)⌋ := by
    refine pyInt_nonneg_eq_floor (mul_nonneg ?_ (by norm_num))
    exact_mod_cast h5.le
  have hcalc : calculate_rebalance_action st pos =
      some { action := Action.sell
             qty := max 1 ⌊((get_position pos).qty : ℚ) * (5 / 100)⌋
             reserve_cash := true
             use_reserve := false } := by
    simp only [calculate_rebalance_action, h1, h3]
    rw [if_neg (by push_neg; exact ⟨h2.ne', hcp.ne'⟩),
      if_pos ⟨h6, h4⟩, if_pos h5, hfl]
  refine ⟨hcalc, fun d hd => ?_⟩
  rw [hcalc] at hd
  obtain rfl := Option.some.inj hd
  simp [execute_rebalance, place_order, h3]

/-- Witness for C1: the spec's scenario — reference 100, position 100, price
105 — yields a sell of 5 shares and a cash reserve of 525. -/
theorem gain_branch_sells_five_percent_witness :
    calculate_rebalance_action
        ⟨"X", some 100, some 105, 105, 100, 0, [], true⟩
        (some ⟨100, 0, 0, 0, 0⟩) =
      some { action := Action.sell
             qty := max 1 ⌊((get_position (some ⟨100, 0, 0, 0, 0⟩)).qty : ℚ) *
               (5 / 100)⌋
             reserve_cash := true
             use_reserve := false } ∧
    (max 1 ⌊((get_position (some (⟨100, 0, 0, 0, 0⟩ : PositionInfo))).qty : ℚ) *
      (5 / 100)⌋ : ℤ) = 5 ∧
    (execute_rebalance ⟨"X", some 100, some 105, 105, 100, 0, [], true⟩
        ⟨Action.sell, 5, true, false⟩ true).2.cash_reserve = 525 := by
  refine ⟨(gain_branch_sells_five_percent
      ⟨"X", some 100, some 105, 105, 100, 0, [], true⟩
      (some ⟨100, 0, 0, 0, 0⟩) 100 105 rfl (by norm_num) rfl rfl
      (by norm_num [get_position]) (by norm_num [gain_threshold])).1, ?_, ?_⟩
  · norm_num [get_position]
  · norm_num [execute_rebalance, place_order]

/-- Claim C2: with a positive reference price and a positive cash reserve, if
the percentage change is at or below the loss threshold (the gain branch
cannot fire because the reserve is nonzero), the engine returns a buy decision
for `floor(cashReserve / currentPrice)` shares flagged `use_reserve` when that
quantity is positive — a successful execution then zeroes the reserve — and
returns no decision when that quantity is zero. -/
theorem loss_branch_redeploys_reserve (st : BotState)
    (pos : Option PositionInfo) (ip cp : ℚ)
    (h1 : st.initial_price = some ip) (h2 : 0 < ip)
    (h3 : st.current_price = some cp)
    (h4 : 0 < st.cash_reserve)
    (h6 : (cp - ip) / ip ≤ -loss_threshold) :
    (0 < ⌊st.cash_reserve / cp⌋ →
      calculate_rebalance_action st pos =
        some { action := Action.buy, qty := ⌊st.cash_reserve / cp⌋
               reserve_cash := false, use_reserve := true } ∧
      ∀ d, calculate_rebalance_action st pos = some d →
        (execute_rebalance st d true).1 = true ∧
        (execute_rebalance st d true).2.cash_reserve = 0) ∧
    (⌊st.cash_reserve / cp⌋ = 0 → calculate_rebalance_action st pos = none) := by
  constructor
  · intro hbq
    have hcp : 0 < cp := by
      rcases lt_trichotomy cp 0 with hlt | rfl | hgt
      · exfalso
        have hdiv : st.cash_reserve / cp < 0 := div_neg_of_pos_of_neg h4 hlt
        have hq : (⌊st.cash_reserve / cp⌋ : ℚ) < 0 :=
          lt_of_le_of_lt (Int.floor_le _) hdiv
        have : ⌊st.cash_reserve / cp⌋ < 0 := by exact_mod_cast hq
        omega
      · rw [div_zero] at hbq
        simp at hbq
      · exact hgt
    have hfl : pyInt (st.cash_reserve / cp) = ⌊st.cash_reserve / cp⌋ :=
      pyInt_nonneg_eq_floor (div_nonneg h4.le hcp.le)
    have hcalc : calculate_rebalance_action st pos =
        some { action := Action.buy, qty := ⌊st.cash_reserve / cp⌋
               reserve_cash := false, use_reserve := true } := by
      simp only [calculate_rebalance_action, h1, h3]
      rw [if_neg (by push_neg; exact ⟨h2.ne', hcp.ne'⟩),
        if_neg (fun hc => h4.ne' hc.2), if_pos ⟨h6, h4⟩, if_pos ⟨h4, hcp⟩, hfl,
        if_pos hbq]
    refine ⟨hcalc, fun d hd => ?_⟩
    rw [hcalc] at hd
    obtain rfl := Option.some.inj hd
    simp [execute_rebalance, place_order, h3]
  · intro hz
    rcases lt_trichotomy cp 0 with hlt | rfl | hgt
    · exfalso
      have hdiv : st.cash_reserve / cp < 0 := div_neg_of_pos_of_neg h4 hlt
      have hq : (⌊st.cash_reserve / cp⌋ : ℚ) < 0 :=
        lt_of_le_of_lt (Int.floor_le _) hdiv
      have : ⌊st.cash_reserve / cp⌋ < 0 := by exact_mod_cast hq
      omega
    · simp [calculate_rebalance_action, h1, h3]
    · have hfl : pyInt (st.cash_reserve / cp) = ⌊st.cash_reserve / cp⌋ :=
        pyInt_nonneg_eq_floor (div_nonneg h4.le hgt.le)
      simp only [calculate_rebalance_action, h1, h3]
      rw [if_neg (by push_neg; exact ⟨h2.ne', hgt.ne'⟩),
        if_neg (fun hc => h4.ne' hc.2), if_pos ⟨h6, h4⟩, if_pos ⟨h4, hgt⟩, hfl,
        if_neg (by omega)]

/-- Witness for C2: the spec's scenario — reference 100, reserve 525, price
90 — yields a buy of `floor(525 / 90) = 5` shares and execution clears the
reserve to 0. -/
theorem loss_branch_redeploys_reserve_witness :
    (0 : ℤ) < ⌊(525 : ℚ) / 90⌋ ∧ (⌊(525 : ℚ) / 90⌋ : ℤ) = 5 ∧
    calculate_rebalance_action
        ⟨"X", some 100, some 90, 105, 90, 525, [], true⟩
        (some ⟨95, 0, 0, 0, 0⟩) =
      some { action := Action.buy, qty := ⌊(525 : ℚ) / 90⌋
             reserve_cash := false, use_reserve := true } ∧
    (execute_rebalance ⟨"X", some 100, some 90, 105, 90, 525, [], true⟩
        ⟨Action.buy, 5, false, true⟩ true).2.cash_reserve = 0 := by
  have h := (loss_branch_redeploys_reserve
      ⟨"X", some 100, some 90, 105, 90, 525, [], true⟩
      (some ⟨95, 0, 0, 0, 0⟩) 100 90 rfl (by norm_num) rfl (by norm_num)
      (by norm_num [loss_threshold])).1 (by norm_num)
  exact ⟨by norm_num, by norm_num, h.1,
    by norm_num [execute_rebalance, place_order]⟩

/-- Claim C5 (code bug): `is_market_open` is supposed to report the market's
open/closed status as a boolean, but the source hardcodes `return True` with
the real `clock.is_open` check commented out (src/tradingbot.py:189). On a
successful clock lookup reporting a closed market the code still returns
`true`, diverging from the specified behaviour; only the fail-safe (lookup
failure → `false`) matches. -/
theorem is_market_open_ignores_clock :
    is_market_open (some false) = true ∧
    is_market_open_asSpecified (some false) = false ∧
    is_market_open none = false ∧ is_market_open_asSpecified none = false :=
  ⟨rfl, rfl, rfl, rfl⟩

/-- Counterexample to claim C6: a session whose reference price is negative —
hence non-positive — does not yield `none`: the truthiness guard only catches
`None` and `0`, the percentage change is still computed against the negative
baseline, and here the loss branch fires a buy decision. -/
theorem negative_reference_price_still_decides :
    calculate_rebalance_action
        ⟨"X", some (-100), some 105, 105, -100, 525, [], true⟩
        (some ⟨10, 0, 0, 0, 0⟩) =
      some ⟨Action.buy, 5, false, true⟩ ∧ (-100 : ℚ) < 0 := by
  constructor
  · norm_num [calculate_rebalance_action, get_position, gain_threshold,
      loss_threshold, pyInt]
  · norm_num

/-- Claim C6 (amended): for every session whose reference price is unset
(`None`) or exactly `0`, the engine returns `none`, for every current price
and every position. -/
theorem unset_or_zero_reference_returns_none (st : BotState)
    (pos : Option PositionInfo)
    (h : st.initial_price = none ∨ st.initial_price = some 0) :
    calculate_rebalance_action st pos = none := by
  rcases h with h | h <;>
    rcases hcp : st.current_price with _ | cp <;>
      simp [calculate_rebalance_action, h, hcp]

/-- Witness for the amended C6: an unset reference price yields no decision. -/
theorem unset_or_zero_reference_returns_none_witness :
    ((⟨"X", none, some 105, 105, 100, 0, [], true⟩ : BotState).initial_price =
        none ∨
      (⟨"X", none, some 105, 105, 100, 0, [], true⟩ : BotState).initial_price =
        some 0) ∧
    calculate_rebalance_action ⟨"X", none, some 105, 105, 100, 0, [], true⟩
      (some ⟨100, 0, 0, 0, 0⟩) = none :=
  ⟨Or.inl rfl, unset_or_zero_reference_returns_none _ _ (Or.inl rfl)⟩

/-- Claim C7: when order submission fails, execution mutates no financial
state — the cash reserve and the trade ledger keep their prior values — and in
general a trade record is appended exactly when the broker submission reports
success. -/
theorem trade_submission_atomicity (st : BotState) (d : Decision) :
    ((execute_rebalance st d false).2.cash_reserve = st.cash_reserve ∧
     (execute_rebalance st d false).2.trades = st.trades ∧
     (execute_rebalance st d false).1 = false) ∧
    ∀ submit_ok : Bool,
      (execute_rebalance st d submit_ok).2.trades =
        st.trades ++ (if submit_ok then
          [{ ticker := st.ticker, side := d.action, qty := d.qty,
             price := st.current_price }] else []) := by
  constructor
  · simp [execute_rebalance, place_order]
  · intro ok
    cases ok
    · simp [execute_rebalance, place_order]
    · rcases hcp : st.current_price with _ | cp <;>
        cases hrc : d.reserve_cash <;> cases hur : d.use_reserve <;>
          simp [execute_rebalance, place_order, hcp, hrc, hur]

/-- Counterexample to claim C4: when the position fetch fails (`none`, which
`get_position` degrades to the all-zero position), the iteration's decision
step is NOT skipped — with an outstanding reserve and a 10% drop the engine
still evaluates, returns a buy decision, and the iteration submits a trade. -/
theorem position_fetch_failure_still_trades :
    step_decision ⟨"X", some 100, some 100, 100, 100, 525, [], true⟩
        ⟨some 90, none, true⟩ =
      some ⟨Action.buy, 5, false, true⟩ ∧
    (monitoring_step ⟨"X", some 100, some 100, 100, 100, 525, [], true⟩
        ⟨some 90, none, true⟩).trades ≠ [] := by
  have hd : step_decision ⟨"X", some 100, some 100, 100, 100, 525, [], true⟩
      ⟨some 90, none, true⟩ = some ⟨Action.buy, 5, false, true⟩ := by
    norm_num [step_decision, price_update, calculate_rebalance_action,
      get_position, zero_position, gain_threshold, loss_threshold, pyInt]
  refine ⟨hd, ?_⟩
  have hc : calculate_rebalance_action
      (price_update ⟨"X", some 100, some 100, 100, 100, 525, [], true⟩ 90)
      none = some ⟨Action.buy, 5, false, true⟩ := by
    norm_num [step_decision] at hd
    exact hd
  simp [monitoring_step, hc, execute_rebalance, place_order]

/-- Claim C4 (amended): a failed position fetch is not fatal and cannot cause
a sell — `get_position` turns the failure into the all-zero position, so the
decision step still runs with quantity 0: the gain branch is disabled, and the
only decision that can still fire is a reserve-redeploying buy. -/
theorem position_fetch_failure_only_buys (st : BotState) (d : Decision)
    (h : calculate_rebalance_action st none = some d) :
    calculate_rebalance_action st none =
      calculate_rebalance_action st (some zero_position) ∧
    d.action = Action.buy ∧ d.use_reserve = true ∧ d.reserve_cash = false := by
  obtain ⟨ip, cp, hip, hcp, hip0, hcp0, hcase⟩ := calculate_eq_some_inv h
  refine ⟨rfl, ?_⟩
  rcases hcase with ⟨_, _, _, _, _, hq, _⟩ | ⟨ha, hrc, hur, _⟩
  · exact absurd hq (by simp [get_position, zero_position])
  · exact ⟨ha, hur, hrc⟩

/-- Witness for the amended C4: a concrete failed-position-fetch iteration in
which the engine fires, and the fired decision is the reserve-redeploying
buy. -/
theorem position_fetch_failure_only_buys_witness :
    calculate_rebalance_action ⟨"X", some 100, some 90, 100, 90, 525, [], true⟩
        none = some ⟨Action.buy, 5, false, true⟩ ∧
    (Decision.mk Action.buy 5 false true).action = Action.buy := by
  have hc : calculate_rebalance_action
      ⟨"X", some 100, some 90, 100, 90, 525, [], true⟩ none =
      some ⟨Action.buy, 5, false, true⟩ := by
    norm_num [calculate_rebalance_action, get_position, zero_position,
      gain_threshold, loss_threshold, pyInt]
  exact ⟨hc, (position_fetch_failure_only_buys _ _ hc).2.1⟩

/-- Claim C9: an iteration whose price fetch fails (returns no value) leaves
the whole session state — current price, daily extremes, cash reserve, trade
ledger — untouched and submits no trade, across any number of consecutive
such iterations. -/
theorem absent_price_fetch_is_frame (st : BotState) (inputs : List Inputs)
    (h : ∀ inp ∈ inputs, inp.fetched_price = none) :
    monitoring_run st inputs = st := by
  induction inputs generalizing st with
  | nil => rfl
  | cons i rest ih =>
    have hstep : monitoring_step st i = st := by
      unfold monitoring_step
      rw [h i (List.mem_cons_self i rest)]
    rw [monitoring_run, List.foldl_cons, hstep]
    exact ih st fun inp hm => h inp (List.mem_cons_of_mem i hm)

/-- Witness for C9: the spec's scenario of three consecutive absent price
fetches, leaving a concrete session state exactly as it was. -/
theorem absent_price_fetch_is_frame_witness :
    (∀ inp ∈ [(⟨none, none, true⟩ : Inputs),
        ⟨none, some ⟨5, 0, 0, 0, 0⟩, false⟩, ⟨none, none, true⟩],
      inp.fetched_price = none) ∧
    monitoring_run ⟨"X", some 100, some 101, 102, 99, 525, [], true⟩
        [⟨none, none, true⟩, ⟨none, some ⟨5, 0, 0, 0, 0⟩, false⟩,
          ⟨none, none, true⟩] =
      ⟨"X", some 100, some 101, 102, 99, 525, [], true⟩ := by
  have hmem : ∀ inp ∈ [(⟨none, none, true⟩ : Inputs),
      ⟨none, some ⟨5, 0, 0, 0, 0⟩, false⟩, ⟨none, none, true⟩],
      inp.fetched_price = none := by
    intro inp hm
    simp only [List.mem_cons, List.not_mem_nil, or_false] at hm
    rcases hm with rfl | rfl | rfl <;> rfl
  exact ⟨hmem, absent_price_fetch_is_frame _ _ hmem⟩

/-- Claim C10: a quoted price of exactly 0 is treated like an absent one — the
loop guard skips the iteration unchanged, the engine's truthiness
preconditions yield `none` for a zero current or reference price — and any buy
decision (the only consumer of the division by the current price) certifies a
strictly positive current price. -/
theorem zero_price_treated_as_absent (st : BotState)
    (pos : Option PositionInfo) :
    (∀ posf ok, monitoring_step st ⟨some 0, posf, ok⟩ = st ∧
      monitoring_step st ⟨none, posf, ok⟩ = st) ∧
    (st.current_price = some 0 → calculate_rebalance_action st pos = none) ∧
    (st.initial_price = some 0 → calculate_rebalance_action st pos = none) ∧
    (∀ d, calculate_rebalance_action st pos = some d →
      d.action = Action.buy → ∃ cp, st.current_price = some cp ∧ 0 < cp) := by
  refine ⟨fun posf ok => ⟨by simp [monitoring_step], rfl⟩, ?_, ?_, ?_⟩
  · intro hcp
    rcases hip : st.initial_price with _ | ip <;>
      simp [calculate_rebalance_action, hip, hcp]
  · intro hip
    rcases hcp : st.current_price with _ | cp <;>
      simp [calculate_rebalance_action, hip, hcp]
  · intro d hd hbuy
    obtain ⟨ip, cp, hip, hcp, _, _, hcase⟩ := calculate_eq_some_inv hd
    rcases hcase with ⟨ha, _⟩ | ⟨_, _, _, _, _, hcppos, _⟩
    · rw [ha] at hbuy
      cases hbuy
    · exact ⟨cp, hcp, hcppos⟩

/-- Witness for C10: a concrete zero quoted price is skipped by the loop and
yields no decision from the engine. -/
theorem zero_price_treated_as_absent_witness :
    (⟨"X", some 100, some 0, 100, 0, 0, [], true⟩ : BotState).current_price =
      some 0 ∧
    calculate_rebalance_action ⟨"X", some 100, some 0, 100, 0, 0, [], true⟩
      (some ⟨100, 0, 0, 0, 0⟩) = none ∧
    monitoring_step ⟨"X", some 100, some 0, 100, 0, 0, [], true⟩
      ⟨some 0, none, true⟩ = ⟨"X", some 100, some 0, 100, 0, 0, [], true⟩ := by
  refine ⟨rfl, ?_, ?_⟩
  · exact (zero_price_treated_as_absent _ (some ⟨100, 0, 0, 0, 0⟩)).2.1 rfl
  · exact ((zero_price_treated_as_absent
      ⟨"X", some 100, some 0, 100, 0, 0, [], true⟩ none).1 none true).1

/-- Executing a decision only touches the cash reserve and the trade ledger:
the price fields and the reference price are untouched. -/
theorem execute_rebalance_preserves_prices (st : BotState) (d : Decision)
    (ok : Bool) :
    (execute_rebalance st d ok).2.daily_high = st.daily_high ∧
    (execute_rebalance st d ok).2.daily_low = st.daily_low ∧
    (execute_rebalance st d ok).2.initial_price = st.initial_price ∧
    (execute_rebalance st d ok).2.current_price = st.current_price := by
  rcases hcp : st.current_price with _ | cp <;>
    cases ok <;> cases hrc : d.reserve_cash <;> cases hur : d.use_reserve <;>
      simp [execute_rebalance, place_order, hcp, hrc, hur]

/-- One iteration never shrinks the daily high nor raises the daily low. -/
theorem monitoring_step_extremes_mono (st : BotState) (inp : Inputs) :
    st.daily_high ≤ (monitoring_step st inp).daily_high ∧
    (monitoring_step st inp).daily_low ≤ st.daily_low := by
  rcases hf : inp.fetched_price with _ | p
  · simp [monitoring_step, hf]
  by_cases hp : p = 0
  · simp [monitoring_step, hf, hp]
  simp only [monitoring_step, hf]
  rw [if_neg hp]
  rcases hc : calculate_rebalance_action (price_update st p) inp.position_fetch
    with _ | d
  · simp only [hc, price_update]
    exact ⟨le_max_left _ _, min_le_left _ _⟩
  · simp only [hc]
    have hex :=
      execute_rebalance_preserves_prices (price_update st p) d inp.order_ok
    rw [hex.1, hex.2.1]
    simp only [price_update]
    exact ⟨le_max_left _ _, min_le_left _ _⟩

/-- A processed (truthy) fetched price is absorbed into the extremes by its
own iteration. -/
theorem monitoring_step_absorbs (st : BotState) (inp : Inputs) (p : ℚ)
    (hf : inp.fetched_price = some p) (hp : p ≠ 0) :
    p ≤ (monitoring_step st inp).daily_high ∧
    (monitoring_step st inp).daily_low ≤ p := by
  simp only [monitoring_step, hf]
  rw [if_neg hp]
  rcases hc : calculate_rebalance_action (price_update st p) inp.position_fetch
    with _ | d
  · simp only [hc, price_update]
    exact ⟨le_max_right _ _, min_le_right _ _⟩
  · simp only [hc]
    have hex :=
      execute_rebalance_preserves_prices (price_update st p) d inp.order_ok
    rw [hex.1, hex.2.1]
    simp only [price_update]
    exact ⟨le_max_right _ _, min_le_right _ _⟩

/-- Over a whole run the daily high never decreases and the daily low never
increases. -/
theorem monitoring_run_extremes_mono (st : BotState) (inputs : List Inputs) :
    st.daily_high ≤ (monitoring_run st inputs).daily_high ∧
    (monitoring_run st inputs).daily_low ≤ st.daily_low := by
  induction inputs generalizing st with
  | nil => exact ⟨le_refl _, le_refl _⟩
  | cons i rest ih =>
    have h1 := monitoring_step_extremes_mono st i
    have h2 := ih (monitoring_step st i)
    exact ⟨le_trans h1.1 h2.1, le_trans h2.2 h1.2⟩

/-- Every observed price of a run is within the final daily extremes. -/
theorem monitoring_run_observed_bound (inputs : List Inputs) (st : BotState) :
    ∀ p ∈ observed_prices inputs,
      p ≤ (monitoring_run st inputs).daily_high ∧
      (monitoring_run st inputs).daily_low ≤ p := by
  induction inputs generalizing st with
  | nil =>
    intro p hp
    simp [observed_prices] at hp
  | cons i rest ih =>
    intro p hp
    rw [monitoring_run, List.foldl_cons]
    rcases hf : i.fetched_price with _ | q
    · have hobs : observed_prices (i :: rest) = observed_prices rest := by
        simp [observed_prices, hf]
      rw [hobs] at hp
      exact ih (monitoring_step st i) p hp
    · by_cases hq : q = 0
      · subst hq
        have hobs : observed_prices (i :: rest) = observed_prices rest := by
          simp [observed_prices, hf]
        rw [hobs] at hp
        exact ih (monitoring_step st i) p hp
      · have hobs : observed_prices (i :: rest) = q :: observed_prices rest := by
          simp [observed_prices, hf, hq]
        rw [hobs] at hp
        rcases List.mem_cons.mp hp with rfl | hp
        · have h1 := monitoring_step_absorbs st i p hf hq
          have h2 := monitoring_run_extremes_mono (monitoring_step st i) rest
          exact ⟨le_trans h1.1 h2.1, le_trans h2.2 h1.2⟩
        · exact ih (monitoring_step st i) p hp

/-- Claim C8: after any sequence of iterations the daily high is at least the
reference price and every observed price, the daily low is at most both, and
one iteration never shrinks the high nor raises the low. -/
theorem daily_extremes_invariant (ticker : String) (ip : ℚ)
    (inputs : List Inputs) :
    (ip ≤ (monitoring_run (start_monitoring_init ticker ip) inputs).daily_high ∧
     (monitoring_run (start_monitoring_init ticker ip) inputs).daily_low ≤ ip) ∧
    (∀ p ∈ observed_prices inputs,
      p ≤ (monitoring_run (start_monitoring_init ticker ip) inputs).daily_high ∧
      (monitoring_run (start_monitoring_init ticker ip) inputs).daily_low ≤ p) ∧
    (∀ st inp, st.daily_high ≤ (monitoring_step st inp).daily_high ∧
      (monitoring_step st inp).daily_low ≤ st.daily_low) := by
  exact ⟨monitoring_run_extremes_mono (start_monitoring_init ticker ip) inputs,
    monitoring_run_observed_bound inputs _, monitoring_step_extremes_mono⟩

/-- Witness for C8: after observing 105 from a reference of 100, the final
extremes bound both values. -/
theorem daily_extremes_invariant_witness :
    (105 : ℚ) ∈ observed_prices [⟨some 105, none, false⟩] ∧
    ((105 : ℚ) ≤ (monitoring_run (start_monitoring_init "X" 100)
        [⟨some 105, none, false⟩]).daily_high ∧
      (monitoring_run (start_monitoring_init "X" 100)
        [⟨some 105, none, false⟩]).daily_low ≤ 105) := by
  have hm : (105 : ℚ) ∈ observed_prices [(⟨some 105, none, false⟩ : Inputs)] := by
    norm_num [observed_prices]
  exact ⟨hm, (daily_extremes_invariant "X" 100 _).2.1 105 hm⟩

/-- A successful execution of a `reserve_cash` decision sets the reserve to
quantity times the current price. -/
theorem execute_sets_reserve (st : BotState) (d : Decision) (cp : ℚ)
    (hcp : st.current_price = some cp) (hrc : d.reserve_cash = true) :
    (execute_rebalance st d true).2.cash_reserve = (d.qty : ℚ) * cp := by
  simp [execute_rebalance, place_order, hcp, hrc]

/-- A successful execution of a `use_reserve` decision zeroes the reserve. -/
theorem execute_clears_reserve (st : BotState) (d : Decision)
    (hrc : d.reserve_cash = false) (hur : d.use_reserve = true) :
    (execute_rebalance st d true).2.cash_reserve = 0 := by
  simp [execute_rebalance, place_order, hrc, hur]

/-- A failed submission leaves the reserve untouched. -/
theorem execute_keeps_reserve (st : BotState) (d : Decision) :
    (execute_rebalance st d false).2.cash_reserve = st.cash_reserve := by
  simp [execute_rebalance, place_order]

/-- Reachability invariant of the loop for a session opened at reference
price `ip`: the reference price is never mutated and the cash reserve never
goes negative. -/
def GoodState (ip : ℚ) (st : BotState) : Prop :=
  st.initial_price = some ip ∧ 0 ≤ st.cash_reserve

theorem goodState_init (ticker : String) (ip : ℚ) :
    GoodState ip (start_monitoring_init ticker ip) := ⟨rfl, le_refl 0⟩

theorem goodState_step {ip : ℚ} (hip : 0 < ip) {st : BotState} (inp : Inputs)
    (hg : GoodState ip st) : GoodState ip (monitoring_step st inp) := by
  rcases hf : inp.fetched_price with _ | p
  · simpa [monitoring_step, hf] using hg
  by_cases hp : p = 0
  · simpa [monitoring_step, hf, hp] using hg
  simp only [monitoring_step, hf]
  rw [if_neg hp]
  rcases hc : calculate_rebalance_action (price_update st p) inp.position_fetch
    with _ | d
  · simp only [hc]
    exact ⟨by simpa [price_update] using hg.1, by simpa [price_update] using hg.2⟩
  simp only [hc]
  have hinit : (execute_rebalance (price_update st p) d inp.order_ok).2.initial_price
      = some ip := by
    rw [(execute_rebalance_preserves_prices _ _ _).2.2.1]
    simpa [price_update] using hg.1
  refine ⟨hinit, ?_⟩
  cases hok : inp.order_ok
  · rw [execute_keeps_reserve]
    simpa [price_update] using hg.2
  obtain ⟨ip', cp', hip', hcp', _, _, hcase⟩ := calculate_eq_some_inv hc
  have hipeq : ip' = ip := by
    have h1 : st.initial_price = some ip' := by simpa [price_update] using hip'
    rw [hg.1] at h1
    exact (Option.some.inj h1).symm
  have hcpeq : cp' = p := by
    have h1 : some p = some cp' := by simpa [price_update] using hcp'
    exact (Option.some.inj h1).symm
  rcases hcase with ⟨_, hrc, _, hpct, _, _, _, hqpos⟩ | ⟨_, hrc, hur, _⟩
  · rw [execute_sets_reserve _ _ p (by simp [price_update]) hrc]
    have hppos : 0 < p := cp_pos_of_gain hip (by rwa [hipeq, hcpeq] at hpct)
    exact le_of_lt (mul_pos (by exact_mod_cast hqpos) hppos)
  · rw [execute_clears_reserve _ _ hrc hur]

theorem goodState_run {ip : ℚ} (hip : 0 < ip) (st : BotState)
    (hg : GoodState ip st) (inputs : List Inputs) :
    GoodState ip (monitoring_run st inputs) := by
  induction inputs generalizing st with
  | nil => exact hg
  | cons i rest ih => exact ih _ (goodState_step hip i hg)

/-- A `sets-reserve` update fires only from a zero reserve and, for a positive
reference price, leaves the reserve strictly positive. -/
theorem sets_reserve_step {ip : ℚ} (hip : 0 < ip) {st : BotState}
    {inp : Inputs} (hg : GoodState ip st) (hev : SetsReserveAt st inp) :
    st.cash_reserve = 0 ∧ 0 < (monitoring_step st inp).cash_reserve := by
  obtain ⟨hok, d, hsd, hrc⟩ := hev
  rcases hf : inp.fetched_price with _ | p
  · simp [step_decision, hf] at hsd
  simp only [step_decision, hf] at hsd
  by_cases hp : p = 0
  · rw [if_pos hp] at hsd
    exact absurd hsd (by simp)
  have hc : calculate_rebalance_action (price_update st p) inp.position_fetch
      = some d := by
    rwa [if_neg hp] at hsd
  obtain ⟨ip', cp', hip', hcp', _, _, hcase⟩ := calculate_eq_some_inv hc
  have hipeq : ip' = ip := by
    have h1 : st.initial_price = some ip' := by simpa [price_update] using hip'
    rw [hg.1] at h1
    exact (Option.some.inj h1).symm
  have hcpeq : cp' = p := by
    have h1 : some p = some cp' := by simpa [price_update] using hcp'
    exact (Option.some.inj h1).symm
  rcases hcase with ⟨_, _, _, hpct, hres, _, _, hqpos⟩ | ⟨_, hrcf, _⟩
  · have hstep : monitoring_step st inp =
        (execute_rebalance (price_update st p) d true).2 := by
      simp only [monitoring_step, hf]
      rw [if_neg hp]
      simp only [hc, hok]
    constructor
    · simpa [price_update] using hres
    · rw [hstep, execute_sets_reserve _ _ p (by simp [price_update]) hrc]
      have hppos : 0 < p := cp_pos_of_gain hip (by rwa [hipeq, hcpeq] at hpct)
      exact mul_pos (by exact_mod_cast hqpos) hppos
  · rw [hrcf] at hrc
    cases hrc

/-- A `clears-reserve` update fires only from a strictly positive reserve and
leaves the reserve exactly zero. -/
theorem clears_reserve_step {st : BotState} {inp : Inputs}
    (hev : ClearsReserveAt st inp) :
    0 < st.cash_reserve ∧ (monitoring_step st inp).cash_reserve = 0 := by
  obtain ⟨hok, d, hsd, hur, hrc⟩ := hev
  rcases hf : inp.fetched_price with _ | p
  · simp [step_decision, hf] at hsd
  simp only [step_decision, hf] at hsd
  by_cases hp : p = 0
  · rw [if_pos hp] at hsd
    exact absurd hsd (by simp)
  have hc : calculate_rebalance_action (price_update st p) inp.position_fetch
      = some d := by
    rwa [if_neg hp] at hsd
  obtain ⟨ip', cp', hip', hcp', _, _, hcase⟩ := calculate_eq_some_inv hc
  rcases hcase with ⟨_, _, hurf, _⟩ | ⟨_, _, _, _, hres, _⟩
  · rw [hurf] at hur
    cases hur
  · have hstep : monitoring_step st inp =
        (execute_rebalance (price_update st p) d true).2 := by
      simp only [monitoring_step, hf]
      rw [if_neg hp]
      simp only [hc, hok]
    constructor
    · simpa [price_update] using hres
    · rw [hstep, execute_clears_reserve _ _ hrc hur]

/-- Counterexample to claim C3 as stated: starting a session on a negative
(truthy) reference price, a `sets-reserve` update can leave the cash reserve
strictly negative — here the first iteration sells 1 share at price −200 and
records a reserve of −200. -/
theorem reserve_invariant_fails_on_negative_reference :
    SetsReserveAt (start_monitoring_init "X" (-100))
      ⟨some (-200), some ⟨10, 0, 0, 0, 0⟩, true⟩ ∧
    (monitoring_step (start_monitoring_init "X" (-100))
      ⟨some (-200), some ⟨10, 0, 0, 0, 0⟩, true⟩).cash_reserve = -200 ∧
    ¬ 0 < (monitoring_step (start_monitoring_init "X" (-100))
      ⟨some (-200), some ⟨10, 0, 0, 0, 0⟩, true⟩).cash_reserve := by
  have hsd : step_decision (start_monitoring_init "X" (-100))
      ⟨some (-200), some ⟨10, 0, 0, 0, 0⟩, true⟩ =
      some ⟨Action.sell, 1, true, false⟩ := by
    norm_num [step_decision, price_update, start_monitoring_init,
      calculate_rebalance_action, get_position, gain_threshold,
      loss_threshold, pyInt]
  have hres : (monitoring_step (start_monitoring_init "X" (-100))
      ⟨some (-200), some ⟨10, 0, 0, 0, 0⟩, true⟩).cash_reserve = -200 := by
    norm_num [monitoring_step, price_update, start_monitoring_init,
      calculate_rebalance_action, get_position, gain_threshold,
      loss_threshold, pyInt, execute_rebalance, place_order]
  refine ⟨⟨rfl, ⟨Action.sell, 1, true, false⟩, hsd, rfl⟩, hres, ?_⟩
  rw [hres]
  norm_num

/-- Claim C3 (amended): provided the session's reference price is positive,
over every sequence of loop iterations a `sets-reserve` update only occurs
when the cash reserve is 0 and leaves it strictly positive, and a
`clears-reserve` update only occurs when the cash reserve is strictly
positive and leaves it exactly 0 — hence at most one reserve is outstanding
at any time. -/
theorem reserve_invariant_of_pos_reference (ticker : String) (ip : ℚ)
    (hip : 0 < ip) (pre : List Inputs) (inp : Inputs) :
    (SetsReserveAt (monitoring_run (start_monitoring_init ticker ip) pre) inp →
      (monitoring_run (start_monitoring_init ticker ip) pre).cash_reserve = 0 ∧
      0 < (monitoring_step
        (monitoring_run (start_monitoring_init ticker ip) pre) inp).cash_reserve) ∧
    (ClearsReserveAt (monitoring_run (start_monitoring_init ticker ip) pre) inp →
      0 < (monitoring_run (start_monitoring_init ticker ip) pre).cash_reserve ∧
      (monitoring_step
        (monitoring_run (start_monitoring_init ticker ip) pre) inp).cash_reserve
        = 0) := by
  have hg := goodState_run hip _ (goodState_init ticker ip) pre
  exact ⟨sets_reserve_step hip hg, fun hev => clears_reserve_step hev⟩

/-- Witness for the amended C3: from a fresh session at reference 100, the
iteration that fetches 105 performs a `sets-reserve` update — it starts from a
zero reserve and ends with a strictly positive one. -/
theorem reserve_invariant_of_pos_reference_witness :
    (0 : ℚ) < 100 ∧
    SetsReserveAt (monitoring_run (start_monitoring_init "X" 100) [])
      ⟨some 105, some ⟨100, 0, 0, 0, 0⟩, true⟩ ∧
    ((monitoring_run (start_monitoring_init "X" 100) []).cash_reserve = 0 ∧
      0 < (monitoring_step (monitoring_run (start_monitoring_init "X" 100) [])
        ⟨some 105, some ⟨100, 0, 0, 0, 0⟩, true⟩).cash_reserve) := by
  have hsd : step_decision (monitoring_run (start_monitoring_init "X" 100) [])
      ⟨some 105, some ⟨100, 0, 0, 0, 0⟩, true⟩ =
      some ⟨Action.sell, 5, true, false⟩ := by
    norm_num [monitoring_run, step_decision, price_update,
      start_monitoring_init, calculate_rebalance_action, get_position,
      gain_threshold, loss_threshold, pyInt]
  have hev : SetsReserveAt (monitoring_run (start_monitoring_init "X" 100) [])
      ⟨some 105, some ⟨100, 0, 0, 0, 0⟩, true⟩ :=
    ⟨rfl, ⟨Action.sell, 5, true, false⟩, hsd, rfl⟩
  exact ⟨by norm_num,
    hev,
    (reserve_invariant_of_pos_reference "X" 100 (by norm_num) [] _).1 hev⟩

end TradingBot
